import Mathlib

/-!
Verification of the EventSentix post-event analytics engine
(`src/backend/services/realtime/socketHandler.js`, class `PostEventAnalyzer`).

JavaScript numbers are modelled by `ℚ` (all arithmetic appearing in the
engine — sums, divisions, percentages — is exact rational arithmetic in
this model); timestamps are millisecond epoch integers (`ℤ`), as produced
by JS `Date` subtraction.  `Math.round` is `⌊x + 1/2⌋`, `Math.floor` is
`Int.floor`, and `toFixed(n)` followed by `parseFloat` is rounding to `n`
decimal places.  Insertion-ordered JS object key maps are modelled as
association lists in first-insertion order, matching `Object.entries`
iteration order for string keys.
-/

namespace EventSentix

/-- JS `Math.round`: round half toward positive infinity. -/
def jsRound (q : ℚ) : ℤ := ⌊q + 1/2⌋

/-- JS `Number.prototype.toFixed(2)` followed by `parseFloat`: round to 2
decimal places (ties toward the larger value, as ECMAScript specifies). -/
def toFixed2 (q : ℚ) : ℚ := (jsRound (q * 100) : ℚ) / 100

/-- JS `toFixed(1)` followed by numeric reading: round to 1 decimal place. -/
def toFixed1 (q : ℚ) : ℚ := (jsRound (q * 10) : ℚ) / 10

/-- Increment an insertion-ordered string-keyed count map, mirroring
`if (!m[k]) m[k] = 0; m[k]++` on a JS object: an existing key is bumped in
place, a new key is appended at the end. -/
def bump : List (String × ℕ) → String → List (String × ℕ)
  | [], k => [(k, 1)]
  | (k', c) :: rest, k =>
      if k' = k then (k', c + 1) :: rest else (k', c) :: bump rest k

/-- Sentiment classes of a feedback record (`Feedback.js` enum). -/
inductive Sentiment
  | positive
  | neutral
  | negative
deriving DecidableEq, Repr

/-- A feedback document (`Feedback.js`): the fields read by
`PostEventAnalyzer.analyzeFeedback`.  `sentimentScore` is required by the
schema (a number in [-1, 1]); `issueType` defaults to `null`, modelled as
`Option`. -/
structure FeedbackRecord where
  id : ℕ
  text : String
  source : String
  sentiment : Sentiment
  sentimentScore : ℚ
  issueType : Option String
  createdAt : ℤ
deriving DecidableEq, Repr

/-- An entry of the `topPositiveFeedback` / `topNegativeFeedback` buffers
(the object literals pushed in `analyzeFeedback`).  The positive-buffer
literal has no `issueType` property; that absence is modelled as `none`. -/
structure FBEntry where
  id : ℕ
  text : String
  source : String
  score : ℚ
  issueType : Option String
  createdAt : ℤ
deriving DecidableEq, Repr

/-- The object pushed into `topPositiveFeedback` for a positive record. -/
def posEntry (f : FeedbackRecord) : FBEntry :=
  ⟨f.id, f.text, f.source, f.sentimentScore, none, f.createdAt⟩

/-- The object pushed into `topNegativeFeedback` for a negative record. -/
def negEntry (f : FeedbackRecord) : FBEntry :=
  ⟨f.id, f.text, f.source, f.sentimentScore, f.issueType, f.createdAt⟩

/-- JS `buf.reduce((min, fb) => key fb < key min ? fb : min, buf[0])`,
returning the minimal key value over `b :: bs` (ties keep the earlier
element, so the value is the minimum). -/
def minKeyVal (key : α → ℚ) (b : α) (bs : List α) : ℚ :=
  bs.foldl (fun m x => if key x < m then key x else m) (key b)

/-- Replace the first element whose key equals `m` by `e`; together with
`minKeyVal` this models `buf.indexOf(lowest)` followed by
`buf[index] = entry` (the `reduce` with strict `<` returns the earliest
minimal element, so the replaced position is the first position attaining
the minimal key). -/
def replaceFirstByKey (key : α → ℚ) (m : ℚ) (e : α) : List α → List α
  | [] => []
  | b :: bs => if key b = m then e :: bs else b :: replaceFirstByKey key m e bs

/-- One step of the bounded top-5 retention of `analyzeFeedback`
(lines 372–426): append while fewer than 5 entries; once full, find the
worst entry (minimal `key`) and replace it only if the incoming entry's
key is strictly greater.  The positive buffer uses `key = score`
(worst = lowest score, replace when the incoming score is strictly
higher); the negative buffer uses `key = -score`, which is the same
algorithm with "worst = highest score, replace when strictly lower". -/
def updateTopBuffer (key : α → ℚ) (buf : List α) (e : α) : List α :=
  if buf.length < 5 then buf ++ [e]
  else
    match buf with
    | [] => [e]
    | b :: bs =>
        let m := minKeyVal key b bs
        if m < key e then replaceFirstByKey key m e (b :: bs) else b :: bs

/-- The mutable accumulators of the single pass of `analyzeFeedback`
(lines 344–426): sentiment counts, running score sum, source and
issue-type count maps, and the two bounded top-5 buffers. -/
structure FeedbackAcc where
  posCount : ℕ
  neuCount : ℕ
  negCount : ℕ
  totalSentimentScore : ℚ
  sourceCounts : List (String × ℕ)
  issueTypes : List (String × ℕ)
  topPos : List FBEntry
  topNeg : List FBEntry
deriving DecidableEq, Repr

/-- The accumulator values before the `feedback.forEach` loop. -/
def initFeedbackAcc : FeedbackAcc := ⟨0, 0, 0, 0, [], [], [], []⟩

/-- One iteration of the `feedback.forEach` loop of `analyzeFeedback`. -/
def feedbackStep (acc : FeedbackAcc) (item : FeedbackRecord) : FeedbackAcc where
  posCount := acc.posCount + (if item.sentiment = .positive then 1 else 0)
  neuCount := acc.neuCount + (if item.sentiment = .neutral then 1 else 0)
  negCount := acc.negCount + (if item.sentiment = .negative then 1 else 0)
  totalSentimentScore := acc.totalSentimentScore + item.sentimentScore
  sourceCounts := bump acc.sourceCounts item.source
  issueTypes :=
    match item.sentiment, item.issueType with
    | .negative, some t => bump acc.issueTypes t
    | _, _ => acc.issueTypes
  topPos :=
    if item.sentiment = .positive then
      updateTopBuffer FBEntry.score acc.topPos (posEntry item)
    else acc.topPos
  topNeg :=
    if item.sentiment = .negative then
      updateTopBuffer (fun e => -e.score) acc.topNeg (negEntry item)
    else acc.topNeg

/-- An entry of `topIssues`: issue type, raw count, share of negative
feedback. -/
structure TopIssue where
  issue : String
  count : ℕ
  percentage : ℚ
deriving DecidableEq, Repr

/-- The sentiment count triple (the three fixed keys of
`sentimentCounts`). -/
structure SentCounts where
  positive : ℕ
  neutral : ℕ
  negative : ℕ
deriving DecidableEq, Repr

/-- The sentiment percentage triple. -/
structure SentPcts where
  positive : ℚ
  neutral : ℚ
  negative : ℚ
deriving DecidableEq, Repr

/-- JS comparator `(a, b) => b.score - a.score` (descending by score). -/
def byScoreDescRel (a b : FBEntry) : Prop := b.score ≤ a.score

/-- JS comparator `(a, b) => a.score - b.score` (ascending by score). -/
def byScoreAscRel (a b : FBEntry) : Prop := a.score ≤ b.score

/-- JS comparator `(a, b) => b.count - a.count` (descending by count). -/
def byCountDescRel (a b : TopIssue) : Prop := b.count ≤ a.count

instance : DecidableRel byScoreDescRel :=
  fun a b => inferInstanceAs (Decidable (b.score ≤ a.score))

instance : DecidableRel byScoreAscRel :=
  fun a b => inferInstanceAs (Decidable (a.score ≤ b.score))

instance : DecidableRel byCountDescRel :=
  fun a b => inferInstanceAs (Decidable (b.count ≤ a.count))

instance : IsTotal FBEntry byScoreDescRel :=
  ⟨fun a b => le_total b.score a.score⟩

instance : IsTrans FBEntry byScoreDescRel :=
  ⟨fun _ _ _ h1 h2 => le_trans h2 h1⟩

instance : IsTotal FBEntry byScoreAscRel :=
  ⟨fun a b => le_total a.score b.score⟩

instance : IsTrans FBEntry byScoreAscRel :=
  ⟨fun _ _ _ h1 h2 => le_trans h1 h2⟩

instance : IsTotal TopIssue byCountDescRel :=
  ⟨fun a b => Nat.le_total b.count a.count⟩

instance : IsTrans TopIssue byCountDescRel :=
  ⟨fun _ _ _ h1 h2 => Nat.le_trans h2 h1⟩

/-- The value returned by `analyzeFeedback` (lines 467–480).  Percentage
maps are association lists over the same keys as the corresponding count
maps, in the same order. -/
structure FeedbackData where
  total : ℕ
  sentimentCounts : SentCounts
  sentimentPercentages : SentPcts
  sourceCounts : List (String × ℕ)
  sourcePercentages : List (String × ℚ)
  issueTypes : List (String × ℕ)
  issuePercentages : List (String × ℚ)
  topIssues : List TopIssue
  topPositiveFeedback : List FBEntry
  topNegativeFeedback : List FBEntry
  averageSentimentScore : ℚ
  netSentimentScore : ℚ
deriving DecidableEq, Repr

/-- `PostEventAnalyzer.analyzeFeedback` (lines 340–485), as a pure
function of the event's feedback snapshot.  The final sorts of the two
buffers use the JS score comparators; `netSentimentScore` is the
`toFixed(2)` string read back as a number (the executive summary applies
`parseFloat` to it). -/
def analyzeFeedback (feedback : List FeedbackRecord) : FeedbackData :=
  let acc := feedback.foldl feedbackStep initFeedbackAcc
  let total := feedback.length
  let pct : ℕ → ℚ := fun c => if 0 < total then (c : ℚ) / total * 100 else 0
  let sentimentPercentages : SentPcts :=
    ⟨pct acc.posCount, pct acc.neuCount, pct acc.negCount⟩
  let negativeTotal := acc.negCount
  let ipct : ℕ → ℚ :=
    fun c => if 0 < negativeTotal then (c : ℚ) / negativeTotal * 100 else 0
  { total := total
    sentimentCounts := ⟨acc.posCount, acc.neuCount, acc.negCount⟩
    sentimentPercentages := sentimentPercentages
    sourceCounts := acc.sourceCounts
    sourcePercentages := acc.sourceCounts.map (fun p => (p.1, pct p.2))
    issueTypes := acc.issueTypes
    issuePercentages := acc.issueTypes.map (fun p => (p.1, ipct p.2))
    topIssues :=
      ((acc.issueTypes.map (fun p => TopIssue.mk p.1 p.2 (ipct p.2))).insertionSort
        byCountDescRel).take 5
    topPositiveFeedback := acc.topPos.insertionSort byScoreDescRel
    topNegativeFeedback := acc.topNeg.insertionSort byScoreAscRel
    averageSentimentScore :=
      if 0 < total then acc.totalSentimentScore / total else 0
    netSentimentScore :=
      toFixed2 ((sentimentPercentages.positive - sentimentPercentages.negative) / 100) }

/-- Alert types (`Alert.js` schema enum: sos, sentiment, issue, trend,
system). -/
inductive AlertType
  | sos
  | sentiment
  | issue
  | trend
  | system
deriving DecidableEq, Repr

/-- Alert severities (`Alert.js` schema enum). -/
inductive Severity
  | low
  | medium
  | high
  | critical
deriving DecidableEq, Repr

/-- Alert statuses (`Alert.js` schema enum). -/
inductive AlertStatus
  | new
  | acknowledged
  | inProgress
  | resolved
  | ignored
deriving DecidableEq, Repr

/-- An alert document (`Alert.js`): the fields read by `analyzeAlerts`.
`resolvedAt` is an optional `Date` (a `Date` object is always truthy in
JS, so truthiness of `alert.resolvedAt` is exactly `isSome`). -/
structure AlertRecord where
  type : AlertType
  severity : Severity
  category : String
  status : AlertStatus
  createdAt : ℤ
  resolvedAt : Option ℤ
deriving DecidableEq, Repr

/-- A JS number-or-missing property value: reading an absent object key
gives `undefined`, and `undefined++` stores `NaN`, which then absorbs all
further increments. -/
inductive JsNum
  | undef
  | nan
  | num (n : ℕ)
deriving DecidableEq, Repr

/-- JS `obj[k]++` on a count property. -/
def JsNum.incr : JsNum → JsNum
  | .undef => .nan
  | .nan => .nan
  | .num n => .num (n + 1)

/-- The `typeCounts` object of `analyzeAlerts`.  The source initialises it
as `{ sentiment: 0, issue: 0, trend: 0, system: 0 }` (line 497) — there is
no `sos` key even though the `Alert` schema's type enum contains `'sos'`;
the absent key is modelled as `JsNum.undef`. -/
structure TypeCounts where
  sos : JsNum
  sentiment : JsNum
  issue : JsNum
  trend : JsNum
  system : JsNum
deriving DecidableEq, Repr

/-- `typeCounts[alert.type]++`. -/
def TypeCounts.incrAt (tc : TypeCounts) : AlertType → TypeCounts
  | .sos => { tc with sos := tc.sos.incr }
  | .sentiment => { tc with sentiment := tc.sentiment.incr }
  | .issue => { tc with issue := tc.issue.incr }
  | .trend => { tc with trend := tc.trend.incr }
  | .system => { tc with system := tc.system.incr }

/-- The `severityCounts` object (all four keys initialised to 0). -/
structure SeverityCounts where
  low : ℕ
  medium : ℕ
  high : ℕ
  critical : ℕ
deriving DecidableEq, Repr

/-- `severityCounts[alert.severity]++`. -/
def SeverityCounts.incrAt (sc : SeverityCounts) : Severity → SeverityCounts
  | .low => { sc with low := sc.low + 1 }
  | .medium => { sc with medium := sc.medium + 1 }
  | .high => { sc with high := sc.high + 1 }
  | .critical => { sc with critical := sc.critical + 1 }

/-- The `statusCounts` object (all five keys initialised to 0). -/
structure StatusCounts where
  new : ℕ
  acknowledged : ℕ
  inProgress : ℕ
  resolved : ℕ
  ignored : ℕ
deriving DecidableEq, Repr

/-- `statusCounts[alert.status]++`. -/
def StatusCounts.incrAt (sc : StatusCounts) : AlertStatus → StatusCounts
  | .new => { sc with new := sc.new + 1 }
  | .acknowledged => { sc with acknowledged := sc.acknowledged + 1 }
  | .inProgress => { sc with inProgress := sc.inProgress + 1 }
  | .resolved => { sc with resolved := sc.resolved + 1 }
  | .ignored => { sc with ignored := sc.ignored + 1 }

/-- The mutable accumulators of the `alerts.forEach` loop of
`analyzeAlerts` (lines 497–559).  The per-day `alertsByDay` timeline is
not modelled (no claim concerns it). -/
structure AlertAcc where
  typeCounts : TypeCounts
  severityCounts : SeverityCounts
  categoryCounts : List (String × ℕ)
  statusCounts : StatusCounts
  totalResponseTime : ℤ
  resolvedCount : ℕ
  criticalResponseTime : ℤ
  criticalCount : ℕ
deriving DecidableEq, Repr

/-- Accumulator values before the loop: note the missing `sos` key of
`typeCounts`. -/
def initAlertAcc : AlertAcc :=
  ⟨⟨.undef, .num 0, .num 0, .num 0, .num 0⟩, ⟨0, 0, 0, 0⟩, [],
    ⟨0, 0, 0, 0, 0⟩, 0, 0, 0, 0⟩

/-- One iteration of the `alerts.forEach` loop of `analyzeAlerts`. -/
def alertStep (acc : AlertAcc) (alert : AlertRecord) : AlertAcc :=
  let base : AlertAcc :=
    { acc with
      typeCounts := acc.typeCounts.incrAt alert.type
      severityCounts := acc.severityCounts.incrAt alert.severity
      categoryCounts := bump acc.categoryCounts alert.category
      statusCounts := acc.statusCounts.incrAt alert.status }
  match alert.status, alert.resolvedAt with
  | .resolved, some t =>
      let responseTime := t - alert.createdAt
      { base with
        totalResponseTime := base.totalResponseTime + responseTime
        resolvedCount := base.resolvedCount + 1
        criticalResponseTime :=
          base.criticalResponseTime +
            (if alert.severity = .critical then responseTime else 0)
        criticalCount :=
          base.criticalCount + (if alert.severity = .critical then 1 else 0) }
  | _, _ => base

/-- The value returned by `analyzeAlerts` (lines 589–600); the
`topCategories` and `timeline` fields are not modelled (no claim concerns
them). -/
structure AlertsData where
  total : ℕ
  typeCounts : TypeCounts
  severityCounts : SeverityCounts
  categoryCounts : List (String × ℕ)
  statusCounts : StatusCounts
  resolutionRate : ℚ
  averageResponseTimeMinutes : ℤ
  criticalResponseTimeMinutes : ℤ
deriving DecidableEq, Repr

/-- `PostEventAnalyzer.analyzeAlerts` (lines 492–605) as a pure function
of the event's alert snapshot. -/
def analyzeAlerts (alerts : List AlertRecord) : AlertsData :=
  let acc := alerts.foldl alertStep initAlertAcc
  let totalAlerts := alerts.length
  let averageResponseTimeMs : ℚ :=
    if 0 < acc.resolvedCount then (acc.totalResponseTime : ℚ) / acc.resolvedCount else 0
  let criticalResponseTimeMs : ℚ :=
    if 0 < acc.criticalCount then (acc.criticalResponseTime : ℚ) / acc.criticalCount else 0
  { total := totalAlerts
    typeCounts := acc.typeCounts
    severityCounts := acc.severityCounts
    categoryCounts := acc.categoryCounts
    statusCounts := acc.statusCounts
    resolutionRate :=
      if 0 < totalAlerts then (acc.statusCounts.resolved : ℚ) / totalAlerts * 100 else 0
    averageResponseTimeMinutes := ⌊averageResponseTimeMs / 1000 / 60⌋
    criticalResponseTimeMinutes := ⌊criticalResponseTimeMs / 1000 / 60⌋ }

/-- The response times (`resolvedAt − createdAt`, in ms) of the alerts
that are counted into the average: status `resolved` and a resolution
timestamp present, in input order. -/
def responseTimesMs (alerts : List AlertRecord) : List ℤ :=
  alerts.filterMap fun a =>
    match a.status, a.resolvedAt with
    | .resolved, some t => some (t - a.createdAt)
    | _, _ => none

/-- The availability gate of `generatePostEventReport` (lines 266–275):
report generation proceeds unless the event is active, not near its end,
and `force` was not passed; `now` and `endDate` are millisecond epoch
times (`now - eventEndDate` is JS `Date` subtraction). -/
def checkReportGate (force : Bool) (now endDate : ℤ) : Except String Unit :=
  let eventEnded := decide (now > endDate)
  let nearEnd := decide (|now - endDate| < 24 * 60 * 60 * 1000)
  if !force && !eventEnded && !nearEnd then
    .error "Cannot generate post-event report for an active event that is not near conclusion"
  else
    .ok ()

/-- One bucket of the hourly sentiment timeline built by
`analyzeSentimentTrends` (lines 737–755): timestamp and raw
positive/neutral/negative/total counts.  (The derived percentage triple
of each bucket is not modelled; the peak and change-point logic reads
only the raw counts.) -/
structure Period where
  timestamp : ℤ
  positive : ℕ
  neutral : ℕ
  negative : ℕ
  total : ℕ
deriving DecidableEq, Repr

/-- `period.negative / period.total` as used in the peak reduce. -/
def negShare (p : Period) : ℚ := (p.negative : ℚ) / p.total

/-- `(period.negative / period.total) * 100` as used in change-point
detection (lines 827–828). -/
def negPercent (p : Period) : ℚ := (p.negative : ℚ) / p.total * 100

/-- The literal initial accumulator `{ negative: 0, total: 1 }` of the
peak-negative reduce (line 813); fields absent from the JS literal are 0
here. -/
def defaultPeak : Period := ⟨0, 0, 0, 0, 1⟩

/-- `hourly.timeline.filter(period => period.total >= 5)` (line 809). -/
def significantPeriods (timeline : List Period) : List Period :=
  timeline.filter fun p => 5 ≤ p.total

/-- The `peakNegativePeriod` reduce of `analyzeSentimentTrends`
(lines 811–814). -/
def peakNegativePeriod (timeline : List Period) : Period :=
  (significantPeriods timeline).foldl
    (fun mx p => if negShare mx < negShare p then p else mx) defaultPeak

/-- An entry of `sentimentChanges` (lines 834–839); `changePct` is the
`toFixed(1)` string read back as a number, and `fromTs`/`toTs` model the
`from`/`to` fields. -/
structure SentimentChange where
  fromTs : ℤ
  toTs : ℤ
  changePct : ℚ
  direction : String
deriving DecidableEq, Repr

/-- The change-point loop of `analyzeSentimentTrends` (lines 822–841):
walk the significant-period list pairwise, starting from the second
element; `prev` is the previous significant period. -/
def sentimentChangesAux : Period → List Period → List SentimentChange
  | _, [] => []
  | prev, curr :: rest =>
      let change := negPercent curr - negPercent prev
      (if 15 ≤ |change| then
        [⟨prev.timestamp, curr.timestamp, toFixed1 change,
          if 0 < change then "negative" else "positive"⟩]
      else []) ++ sentimentChangesAux curr rest

/-- The `sentimentChanges` output of `analyzeSentimentTrends`
(line 850): the loop's pushes followed by `slice(0, 5)`. -/
def sentimentChanges (timeline : List Period) : List SentimentChange :=
  (match significantPeriods timeline with
   | [] => []
   | p :: rest => sentimentChangesAux p rest).take 5

/-- The fields of the `analyzeIssues` output (lines 682–693) that the
executive summary and recommendation engine read; the issue aggregator
itself is not the subject of any claim, so only its output interface is
modelled. -/
structure IssuesData where
  total : ℕ
  resolutionRate : ℚ
  unresolvedCount : ℤ
deriving DecidableEq, Repr

/-- The success-level if/else chain of `generateExecutiveSummary`
(lines 894–907), evaluated from the highest tier downward. -/
def successLevelOf (overallScore : ℤ) : String :=
  if overallScore ≥ 90 then "exceptional"
  else if overallScore ≥ 75 then "successful"
  else if overallScore ≥ 60 then "satisfactory"
  else if overallScore ≥ 40 then "mixed"
  else if overallScore ≥ 25 then "challenging"
  else "problematic"

/-- The value returned by `generateExecutiveSummary` (lines 919–936).
The `sentimentRatioPos`/`sentimentRatioNeg` pair models the two rounded
numbers of the `"pos/neg"` string; `alertsResolutionRate` and
`issuesResolutionRate` are the `toFixed(1)` strings read back as
numbers. -/
structure Summary where
  overallScore : ℤ
  successLevel : String
  feedbackTotal : ℕ
  topIssueType : String
  primarySentiment : String
  sentimentRatioPos : ℤ
  sentimentRatioNeg : ℤ
  netSentimentScore : ℚ
  primarySource : String
  alertsTotal : ℕ
  alertsResolutionRate : ℚ
  averageAlertResponseTime : ℤ
  issuesTotal : ℕ
  issuesResolutionRate : ℚ
  unresolvedIssuesCount : ℤ
deriving DecidableEq, Repr

/-- `PostEventAnalyzer.generateExecutiveSummary` (lines 867–937).
`parseFloat(feedbackData.netSentimentScore)` reads the `toFixed(2)`
string back as the number it denotes, which is `netSentimentScore`
itself in this model. -/
def generateExecutiveSummary (feedbackData : FeedbackData)
    (alertsData : AlertsData) (issuesData : IssuesData) : Summary :=
  let sentimentScore : ℚ :=
    min 100 (max 0 (50 + feedbackData.netSentimentScore * 50))
  let issueScore : ℚ := min 100 (max 0 issuesData.resolutionRate)
  let alertScore : ℚ := min 100 (max 0 alertsData.resolutionRate)
  let overallScore : ℤ :=
    jsRound (sentimentScore * (0.4 : ℚ) + issueScore * (0.3 : ℚ) + alertScore * (0.3 : ℚ))
  let primarySource : String :=
    (feedbackData.sourceCounts.foldl
      (fun (p : String × ℕ) e => if p.2 < e.2 then e else p) ("direct", 0)).1
  { overallScore := overallScore
    successLevel := successLevelOf overallScore
    feedbackTotal := feedbackData.total
    topIssueType :=
      match feedbackData.topIssues with
      | [] => "none"
      | t :: _ => t.issue
    primarySentiment :=
      if feedbackData.sentimentPercentages.negative <
          feedbackData.sentimentPercentages.positive
        then "positive" else "negative"
    sentimentRatioPos := jsRound feedbackData.sentimentPercentages.positive
    sentimentRatioNeg := jsRound feedbackData.sentimentPercentages.negative
    netSentimentScore := feedbackData.netSentimentScore
    primarySource := primarySource
    alertsTotal := alertsData.total
    alertsResolutionRate := toFixed1 alertsData.resolutionRate
    averageAlertResponseTime := alertsData.averageResponseTimeMinutes
    issuesTotal := issuesData.total
    issuesResolutionRate := toFixed1 issuesData.resolutionRate
    unresolvedIssuesCount := issuesData.unresolvedCount }

/-- A recommendation as pushed by `generateImprovementRecommendations`
(the `description` prose is not modelled). -/
structure Recommendation where
  area : String
  title : String
  priority : String
deriving DecidableEq, Repr

/-- The issue-based block of `generateImprovementRecommendations`
(lines 1081–1165): when any top issue exists, the `switch` on
`topIssues[0].issue` pushes exactly one recommendation.  The remaining
blocks of the function (alert response, sentiment, feedback volume,
source diversity, positive reinforcement) push recommendations that are
not issue-based and are not modelled. -/
def issueBasedRecommendations (feedbackData : FeedbackData) : List Recommendation :=
  match feedbackData.topIssues with
  | [] => []
  | topIssue :: _ =>
      if topIssue.issue = "queue" then
        [⟨"Logistics", "Improve Queue Management",
          if 30 < topIssue.percentage then "high" else "medium"⟩]
      else if topIssue.issue = "audio" then
        [⟨"Technical", "Enhance Audio Setup",
          if 30 < topIssue.percentage then "high" else "medium"⟩]
      else if topIssue.issue = "video" then
        [⟨"Technical", "Improve Visual Displays",
          if 30 < topIssue.percentage then "high" else "medium"⟩]
      else if topIssue.issue = "crowding" then
        [⟨"Venue", "Address Space Management",
          if 30 < topIssue.percentage then "high" else "medium"⟩]
      else if topIssue.issue = "amenities" then
        [⟨"Services", "Enhance Attendee Amenities",
          if 30 < topIssue.percentage then "high" else "medium"⟩]
      else if topIssue.issue = "content" then
        [⟨"Programming", "Refine Event Content",
          if 30 < topIssue.percentage then "high" else "medium"⟩]
      else if topIssue.issue = "temperature" then
        [⟨"Venue", "Improve Climate Control",
          if 25 < topIssue.percentage then "high" else "medium"⟩]
      else if topIssue.issue = "safety" then
        [⟨"Security", "Enhance Safety Measures", "high"⟩]
      else
        [⟨"General", "Address " ++ topIssue.issue ++ " Issues",
          if 25 < topIssue.percentage then "high" else "medium"⟩]

/-- The priority policy of the issue-based recommendation, as the spec
states it: always high for safety; high iff the issue's share of
negative feedback strictly exceeds 30% for queue, audio, video,
crowding, amenities and content; strictly exceeds 25% for temperature
and for the generic fallback; otherwise medium. -/
def claimedPriority (t : TopIssue) : String :=
  if t.issue = "safety" then "high"
  else if t.issue ∈ ["queue", "audio", "video", "crowding", "amenities", "content"] then
    (if 30 < t.percentage then "high" else "medium")
  else (if 25 < t.percentage then "high" else "medium")

/-! ### Helper lemmas -/

/-- `clamp(x, 0, 100)` as the spec writes it. -/
def clampSpec (q : ℚ) : ℚ := max 0 (min 100 q)

lemma min_max_clamp (q : ℚ) : min 100 (max 0 q) = clampSpec q := by
  unfold clampSpec
  simp only [min_def, max_def]
  split_ifs <;> linarith

lemma clampSpec_nonneg (q : ℚ) : 0 ≤ clampSpec q := le_max_left 0 _

lemma clampSpec_le_100 (q : ℚ) : clampSpec q ≤ 100 :=
  max_le (by norm_num) (min_le_left _ _)

lemma successLevelOf_spec (n : ℤ) :
    (successLevelOf n = "exceptional" ↔ 90 ≤ n) ∧
    (successLevelOf n = "successful" ↔ 75 ≤ n ∧ n < 90) ∧
    (successLevelOf n = "satisfactory" ↔ 60 ≤ n ∧ n < 75) ∧
    (successLevelOf n = "mixed" ↔ 40 ≤ n ∧ n < 60) ∧
    (successLevelOf n = "challenging" ↔ 25 ≤ n ∧ n < 40) ∧
    (successLevelOf n = "problematic" ↔ n < 25) := by
  unfold successLevelOf
  split_ifs with h1 h2 h3 h4 h5 <;>
    refine ⟨?_, ?_, ?_, ?_, ?_, ?_⟩ <;> simp_all <;> omega

/-! ### C3: report availability gate -/

/-- C3: for every current time, event end time and force flag, the
availability gate of `generatePostEventReport` lets generation proceed
iff `force` is set, or the event has ended (`now > endDate`), or the
current time is within 24 hours of the end; otherwise it fails with the
human-readable not-yet-available error message. -/
theorem c3_availability_gate (force : Bool) (now endDate : ℤ) :
    (checkReportGate force now endDate = .ok () ↔
      force = true ∨ endDate < now ∨ |now - endDate| < 24 * 60 * 60 * 1000) ∧
    (¬(force = true ∨ endDate < now ∨ |now - endDate| < 24 * 60 * 60 * 1000) →
      checkReportGate force now endDate =
        .error "Cannot generate post-event report for an active event that is not near conclusion") := by
  unfold checkReportGate
  cases force <;>
    by_cases h1 : endDate < now <;>
      by_cases h2 : |now - endDate| < 24 * 60 * 60 * 1000 <;>
        simp [h1, h2]

/-- C3 witness: an event ending 3 days (259 200 000 ms) in the future is
rejected without `force` and allowed with `force`. -/
theorem c3_availability_gate_witness :
    checkReportGate false 0 259200000 =
      .error "Cannot generate post-event report for an active event that is not near conclusion" ∧
    checkReportGate true 0 259200000 = .ok () :=
  ⟨(c3_availability_gate false 0 259200000).2 (by decide),
    (c3_availability_gate true 0 259200000).1.mpr (Or.inl rfl)⟩

/-! ### C5: alert type counts and the missing `sos` key -/

/-- A single SOS alert. -/
def sosDemoAlert : AlertRecord := ⟨.sos, .critical, "emergency", .new, 0, none⟩

/-- C5 (code bug): on an alert set containing one `'sos'` alert,
`analyzeAlerts` reports `NaN` for `typeCounts.sos` — the `typeCounts`
initialiser (line 497) has no `sos` key although the `Alert` schema's
type enum is sos/sentiment/issue/trend/system, so `typeCounts['sos']++`
increments `undefined` — instead of the count 1 the claim requires. -/
theorem c5_sos_typecount_nan :
    (analyzeAlerts [sosDemoAlert]).typeCounts.sos = JsNum.nan ∧
    (analyzeAlerts [sosDemoAlert]).typeCounts.sos ≠ JsNum.num 1 := by
  constructor
  · rfl
  · intro h
    simp [analyzeAlerts, initAlertAcc, alertStep, sosDemoAlert,
      TypeCounts.incrAt, JsNum.incr] at h

/-! ### C10: empty feedback defaults of the executive summary -/

/-- C10: with an empty feedback set the executive summary reports
`primarySentiment = 'negative'` (both percentages are 0 and the
comparison `positive > negative` is strict) and `primarySource =
'direct'` (the hard-coded initial value survives the fold over an empty
source-count map), whatever the other aggregator outputs are. -/
theorem c10_empty_feedback_defaults (a : AlertsData) (i : IssuesData) :
    (generateExecutiveSummary (analyzeFeedback []) a i).primarySentiment = "negative" ∧
    (generateExecutiveSummary (analyzeFeedback []) a i).primarySource = "direct" := by
  constructor <;> rfl

/-- C10 witness: the empty-feedback defaults at the all-empty report. -/
theorem c10_empty_feedback_defaults_witness :
    (generateExecutiveSummary (analyzeFeedback []) (analyzeAlerts [])
      ⟨0, 0, 0⟩).primarySentiment = "negative" ∧
    (generateExecutiveSummary (analyzeFeedback []) (analyzeAlerts [])
      ⟨0, 0, 0⟩).primarySource = "direct" :=
  c10_empty_feedback_defaults (analyzeAlerts []) ⟨0, 0, 0⟩

/-! ### C1: overall score and success level -/

/-- C1: for every combination of aggregator outputs, the executive
summary's `overallScore` is `round(0.4·clamp(50 + net·50, 0, 100) +
0.3·clamp(issueRate, 0, 100) + 0.3·clamp(alertRate, 0, 100))`, an
integer in [0, 100]; and `successLevel` is the step function of it with
inclusive lower bounds 90/75/60/40/25, evaluated from the highest tier
down. -/
theorem c1_overall_score_and_level (f : FeedbackData) (a : AlertsData)
    (i : IssuesData) :
    (generateExecutiveSummary f a i).overallScore =
      jsRound ((0.4 : ℚ) * clampSpec (50 + f.netSentimentScore * 50) +
        (0.3 : ℚ) * clampSpec i.resolutionRate +
        (0.3 : ℚ) * clampSpec a.resolutionRate) ∧
    0 ≤ (generateExecutiveSummary f a i).overallScore ∧
    (generateExecutiveSummary f a i).overallScore ≤ 100 ∧
    ((generateExecutiveSummary f a i).successLevel = "exceptional" ↔
      90 ≤ (generateExecutiveSummary f a i).overallScore) ∧
    ((generateExecutiveSummary f a i).successLevel = "successful" ↔
      75 ≤ (generateExecutiveSummary f a i).overallScore ∧
        (generateExecutiveSummary f a i).overallScore < 90) ∧
    ((generateExecutiveSummary f a i).successLevel = "satisfactory" ↔
      60 ≤ (generateExecutiveSummary f a i).overallScore ∧
        (generateExecutiveSummary f a i).overallScore < 75) ∧
    ((generateExecutiveSummary f a i).successLevel = "mixed" ↔
      40 ≤ (generateExecutiveSummary f a i).overallScore ∧
        (generateExecutiveSummary f a i).overallScore < 60) ∧
    ((generateExecutiveSummary f a i).successLevel = "challenging" ↔
      25 ≤ (generateExecutiveSummary f a i).overallScore ∧
        (generateExecutiveSummary f a i).overallScore < 40) ∧
    ((generateExecutiveSummary f a i).successLevel = "problematic" ↔
      (generateExecutiveSummary f a i).overallScore < 25) := by
  have hscore : (generateExecutiveSummary f a i).overallScore =
      jsRound ((0.4 : ℚ) * clampSpec (50 + f.netSentimentScore * 50) +
        (0.3 : ℚ) * clampSpec i.resolutionRate +
        (0.3 : ℚ) * clampSpec a.resolutionRate) := by
    simp only [generateExecutiveSummary, min_max_clamp]
    ring_nf
  have hlevel : (generateExecutiveSummary f a i).successLevel =
      successLevelOf (generateExecutiveSummary f a i).overallScore := rfl
  have hb : 0 ≤ (generateExecutiveSummary f a i).overallScore ∧
      (generateExecutiveSummary f a i).overallScore ≤ 100 := by
    rw [hscore]
    set x := clampSpec (50 + f.netSentimentScore * 50) with hx
    set y := clampSpec i.resolutionRate with hy
    set z := clampSpec a.resolutionRate with hz
    have hx0 := clampSpec_nonneg (50 + f.netSentimentScore * 50)
    have hx1 := clampSpec_le_100 (50 + f.netSentimentScore * 50)
    have hy0 := clampSpec_nonneg i.resolutionRate
    have hy1 := clampSpec_le_100 i.resolutionRate
    have hz0 := clampSpec_nonneg a.resolutionRate
    have hz1 := clampSpec_le_100 a.resolutionRate
    rw [← hx] at hx0 hx1
    rw [← hy] at hy0 hy1
    rw [← hz] at hz0 hz1
    constructor
    · apply Int.le_floor.mpr
      push_cast
      nlinarith
    · have : jsRound ((0.4 : ℚ) * x + (0.3 : ℚ) * y + (0.3 : ℚ) * z) < 101 := by
        apply Int.floor_lt.mpr
        push_cast
        nlinarith
      omega
  have hs := successLevelOf_spec (generateExecutiveSummary f a i).overallScore
  rw [← hlevel] at hs
  exact ⟨hscore, hb.1, hb.2, hs.1, hs.2.1, hs.2.2.1, hs.2.2.2.1,
    hs.2.2.2.2.1, hs.2.2.2.2.2⟩

/-- C1 witness: the theorem instantiated at the empty aggregates — the
score of the all-empty report is `round(0.4·50 + 0.3·0 + 0.3·0) = 20`
and its level is "problematic". -/
theorem c1_overall_score_and_level_witness :
    0 ≤ (generateExecutiveSummary (analyzeFeedback []) (analyzeAlerts [])
      ⟨0, 0, 0⟩).overallScore ∧
    (generateExecutiveSummary (analyzeFeedback []) (analyzeAlerts [])
      ⟨0, 0, 0⟩).overallScore = 20 ∧
    (generateExecutiveSummary (analyzeFeedback []) (analyzeAlerts [])
      ⟨0, 0, 0⟩).successLevel = "problematic" := by
  have h20 : (generateExecutiveSummary (analyzeFeedback []) (analyzeAlerts [])
      ⟨0, 0, 0⟩).overallScore = 20 := by
    rw [(c1_overall_score_and_level (analyzeFeedback []) (analyzeAlerts [])
      ⟨0, 0, 0⟩).1]
    have hfl : (⌊((0 : ℚ) - 0) / 100 * 100 + 1/2⌋ : ℤ) = 0 := by
      rw [Int.floor_eq_iff]
      norm_num
    have hnet : (analyzeFeedback []).netSentimentScore = 0 := by
      have h1 : (analyzeFeedback []).netSentimentScore =
          toFixed2 (((0 : ℚ) - 0) / 100) := rfl
      rw [h1]
      unfold toFixed2 jsRound
      rw [hfl]
      norm_num
    have hir : (IssuesData.mk 0 0 0).resolutionRate = 0 := rfl
    have har : (analyzeAlerts []).resolutionRate = 0 := rfl
    rw [hnet, hir, har]
    have hc : clampSpec (50 + (0 : ℚ) * 50) = 50 := by
      unfold clampSpec; norm_num
    have hc0 : clampSpec (0 : ℚ) = 0 := by
      unfold clampSpec; norm_num
    rw [hc, hc0]
    unfold jsRound
    rw [Int.floor_eq_iff]
    norm_num
  refine ⟨(c1_overall_score_and_level (analyzeFeedback []) (analyzeAlerts [])
      ⟨0, 0, 0⟩).2.1, h20, ?_⟩
  exact (c1_overall_score_and_level (analyzeFeedback []) (analyzeAlerts [])
      ⟨0, 0, 0⟩).2.2.2.2.2.2.2.2.mpr (by rw [h20]; norm_num)

/-! ### C2: percentage invariants -/

lemma feedback_counts_sum (l : List FeedbackRecord) : ∀ acc : FeedbackAcc,
    (l.foldl feedbackStep acc).posCount + (l.foldl feedbackStep acc).neuCount +
      (l.foldl feedbackStep acc).negCount =
    acc.posCount + acc.neuCount + acc.negCount + l.length := by
  induction l with
  | nil => simp
  | cons f fs ih =>
      intro acc
      rw [List.foldl_cons, ih]
      cases hs : f.sentiment <;> simp [feedbackStep, hs] <;> omega

/-- C2: when the feedback set is empty every percentage entry is 0; when
it is non-empty the positive/neutral/negative percentage triple sums to
100 within tolerance 1e-9 (exactly, in the rational model of JS
numbers). -/
theorem c2_percentage_invariants (l : List FeedbackRecord) :
    (l = [] →
      (analyzeFeedback l).sentimentPercentages = ⟨0, 0, 0⟩ ∧
      (∀ p ∈ (analyzeFeedback l).sourcePercentages, p.2 = 0) ∧
      (∀ p ∈ (analyzeFeedback l).issuePercentages, p.2 = 0)) ∧
    (l ≠ [] →
      |(analyzeFeedback l).sentimentPercentages.positive +
        (analyzeFeedback l).sentimentPercentages.neutral +
        (analyzeFeedback l).sentimentPercentages.negative - 100| ≤
          1 / 1000000000) := by
  constructor
  · rintro rfl
    refine ⟨rfl, ?_, ?_⟩ <;> simp [analyzeFeedback, initFeedbackAcc]
  · intro hne
    have htot : 0 < l.length := List.length_pos.mpr hne
    have hc := feedback_counts_sum l initFeedbackAcc
    have h0p : initFeedbackAcc.posCount = 0 := rfl
    have h0u : initFeedbackAcc.neuCount = 0 := rfl
    have h0n : initFeedbackAcc.negCount = 0 := rfl
    rw [h0p, h0u, h0n] at hc
    have hsum : (l.foldl feedbackStep initFeedbackAcc).posCount +
        (l.foldl feedbackStep initFeedbackAcc).neuCount +
        (l.foldl feedbackStep initFeedbackAcc).negCount = l.length := by
      omega
    have hlen : ((l.length : ℚ)) ≠ 0 := by
      exact_mod_cast Nat.pos_iff_ne_zero.mp htot
    have hp : (analyzeFeedback l).sentimentPercentages.positive =
        ((l.foldl feedbackStep initFeedbackAcc).posCount : ℚ) / l.length * 100 := by
      simp [analyzeFeedback, htot]
    have hu : (analyzeFeedback l).sentimentPercentages.neutral =
        ((l.foldl feedbackStep initFeedbackAcc).neuCount : ℚ) / l.length * 100 := by
      simp [analyzeFeedback, htot]
    have hn : (analyzeFeedback l).sentimentPercentages.negative =
        ((l.foldl feedbackStep initFeedbackAcc).negCount : ℚ) / l.length * 100 := by
      simp [analyzeFeedback, htot]
    rw [hp, hu, hn]
    have hq : (((l.foldl feedbackStep initFeedbackAcc).posCount : ℚ) +
        (l.foldl feedbackStep initFeedbackAcc).neuCount +
        (l.foldl feedbackStep initFeedbackAcc).negCount) = (l.length : ℚ) := by
      exact_mod_cast congrArg (Nat.cast (R := ℚ)) hsum
    have hsum100 : ((l.foldl feedbackStep initFeedbackAcc).posCount : ℚ) / l.length * 100 +
        ((l.foldl feedbackStep initFeedbackAcc).neuCount : ℚ) / l.length * 100 +
        ((l.foldl feedbackStep initFeedbackAcc).negCount : ℚ) / l.length * 100 = 100 := by
      field_simp
      linarith
    rw [hsum100]
    norm_num

/-- C2 witness: a 3-record set (1 positive, 1 neutral, 1 negative). -/
def demoFeedbackTriple : List FeedbackRecord :=
  [⟨1, "great", "direct", .positive, 9/10, none, 0⟩,
   ⟨2, "ok", "twitter", .neutral, 0, none, 1⟩,
   ⟨3, "bad queue", "direct", .negative, -(4/5), some "queue", 2⟩]

/-- C2 witness: on the 3-record demo set the percentage triple sums to
100 within 1e-9. -/
theorem c2_percentage_invariants_witness :
    |(analyzeFeedback demoFeedbackTriple).sentimentPercentages.positive +
      (analyzeFeedback demoFeedbackTriple).sentimentPercentages.neutral +
      (analyzeFeedback demoFeedbackTriple).sentimentPercentages.negative - 100| ≤
        1 / 1000000000 :=
  (c2_percentage_invariants demoFeedbackTriple).2 (by decide)

/-! ### C8: average alert response time -/

lemma alertAcc_response (l : List AlertRecord) : ∀ acc : AlertAcc,
    (l.foldl alertStep acc).totalResponseTime =
      acc.totalResponseTime + (responseTimesMs l).sum ∧
    (l.foldl alertStep acc).resolvedCount =
      acc.resolvedCount + (responseTimesMs l).length := by
  induction l with
  | nil => simp [responseTimesMs]
  | cons a as ih =>
      intro acc
      rw [List.foldl_cons]
      rcases (ih (alertStep acc a)) with ⟨h1, h2⟩
      rw [h1, h2]
      rcases hst : a.status <;> rcases hres : a.resolvedAt <;>
        simp [alertStep, responseTimesMs, hst, hres] <;> omega

/-- C8: `averageResponseTimeMinutes` is the floor of the mean response
time (sum of `resolvedAt − createdAt` in ms over resolved alerts with a
resolution timestamp, divided by their count, divided by 60000), and 0
when no such alert exists. -/
theorem c8_average_response_time (alerts : List AlertRecord) :
    (responseTimesMs alerts = [] →
      (analyzeAlerts alerts).averageResponseTimeMinutes = 0) ∧
    (responseTimesMs alerts ≠ [] →
      (analyzeAlerts alerts).averageResponseTimeMinutes =
        ⌊((responseTimesMs alerts).sum : ℚ) /
          ((responseTimesMs alerts).length : ℚ) / 60000⌋) := by
  obtain ⟨h1, h2⟩ := alertAcc_response alerts initAlertAcc
  have h0t : initAlertAcc.totalResponseTime = 0 := rfl
  have h0c : initAlertAcc.resolvedCount = 0 := rfl
  rw [h0t, zero_add] at h1
  rw [h0c, zero_add] at h2
  constructor
  · intro hempty
    have hz : (alerts.foldl alertStep initAlertAcc).resolvedCount = 0 := by
      rw [h2, hempty]
      rfl
    simp [analyzeAlerts, hz]
  · intro hne
    have hlen : 0 < (responseTimesMs alerts).length := List.length_pos.mpr hne
    have hcount : 0 < (alerts.foldl alertStep initAlertAcc).resolvedCount := by
      rw [h2]
      exact hlen
    simp only [analyzeAlerts]
    rw [if_pos hcount, h1, h2]
    rw [div_div]
    norm_num

/-- C8 witness: 5 resolved alerts with response times 10, 20, 30, 40 and
50 minutes average to exactly 30 minutes (floor of the mean). -/
def demoResolvedAlerts : List AlertRecord :=
  [⟨.issue, .low, "general", .resolved, 0, some 600000⟩,
   ⟨.issue, .low, "general", .resolved, 0, some 1200000⟩,
   ⟨.issue, .low, "general", .resolved, 0, some 1800000⟩,
   ⟨.issue, .low, "general", .resolved, 0, some 2400000⟩,
   ⟨.issue, .low, "general", .resolved, 0, some 3000000⟩]

/-- C8 witness: the averaged demo set yields exactly 30 minutes. -/
theorem c8_average_response_time_witness :
    (analyzeAlerts demoResolvedAlerts).averageResponseTimeMinutes = 30 := by
  have h := (c8_average_response_time demoResolvedAlerts).2 (by decide)
  have hr : responseTimesMs demoResolvedAlerts =
      [600000, 1200000, 1800000, 2400000, 3000000] := rfl
  rw [h, hr]
  norm_num [List.sum_cons]

/-! ### C6: peak negative period -/

lemma foldl_peak_spec (l : List Period) : ∀ acc : Period,
    (l.foldl (fun mx p => if negShare mx < negShare p then p else mx) acc = acc ∨
      l.foldl (fun mx p => if negShare mx < negShare p then p else mx) acc ∈ l) ∧
    (∀ p ∈ l,
      negShare p ≤
        negShare (l.foldl (fun mx p => if negShare mx < negShare p then p else mx) acc)) ∧
    negShare acc ≤
      negShare (l.foldl (fun mx p => if negShare mx < negShare p then p else mx) acc) := by
  induction l with
  | nil => simp
  | cons q qs ih =>
      intro acc
      rw [List.foldl_cons]
      by_cases h : negShare acc < negShare q
      · rw [if_pos h]
        obtain ⟨ha, hb, hc⟩ := ih q
        refine ⟨?_, ?_, le_trans (le_of_lt h) hc⟩
        · rcases ha with ha | ha
          · refine Or.inr ?_
            rw [ha]
            exact List.mem_cons_self q qs
          · exact Or.inr (List.mem_cons_of_mem q ha)
        · intro p hp
          rcases List.mem_cons.mp hp with rfl | hp
          · exact hc
          · exact hb p hp
      · rw [if_neg h]
        obtain ⟨ha, hb, hc⟩ := ih acc
        refine ⟨?_, ?_, hc⟩
        · rcases ha with ha | ha
          · exact Or.inl ha
          · exact Or.inr (List.mem_cons_of_mem q ha)
        · intro p hp
          rcases List.mem_cons.mp hp with rfl | hp
          · exact le_trans (not_lt.mp h) hc
          · exact hb p hp

lemma foldl_peak_no_improvement (l : List Period) : ∀ acc : Period,
    (∀ p ∈ l, negShare p ≤ negShare acc) →
    l.foldl (fun mx p => if negShare mx < negShare p then p else mx) acc = acc := by
  induction l with
  | nil => intro acc _; rfl
  | cons q qs ih =>
      intro acc h
      rw [List.foldl_cons,
        if_neg (not_lt.mpr (h q (List.mem_cons_self q qs)))]
      exact ih acc fun p hp => h p (List.mem_cons_of_mem q hp)

/-- The claim's scenario bucket A: total 3 (below the significance
threshold) with raw negative ratio 1. -/
def bucketA : Period := ⟨0, 0, 0, 3, 3⟩

/-- The claim's scenario bucket B: total 10 with 8 negative. -/
def bucketB : Period := ⟨1, 2, 0, 8, 10⟩

/-- C6 counterexample: on a timeline with one significant period that has
zero negative count, `peakNegativePeriod` returns the default accumulator
`{negative: 0, total: 1}` — which is not among the significant periods —
so the claim's "chosen only among significant periods" is false as
stated. -/
theorem c6_peak_negative_counterexample :
    significantPeriods [⟨0, 5, 0, 0, 5⟩] ≠ [] ∧
    peakNegativePeriod [⟨0, 5, 0, 0, 5⟩] ∉ significantPeriods [⟨0, 5, 0, 0, 5⟩] := by
  have hp : peakNegativePeriod [⟨0, 5, 0, 0, 5⟩] = defaultPeak := by
    have hsig : significantPeriods [(⟨0, 5, 0, 0, 5⟩ : Period)] =
        [⟨0, 5, 0, 0, 5⟩] := rfl
    unfold peakNegativePeriod
    rw [hsig]
    simp only [List.foldl_cons, List.foldl_nil]
    rw [if_neg]
    norm_num [negShare, defaultPeak]
  refine ⟨by decide, ?_⟩
  rw [hp]
  decide

/-- C6 (amended): `peakNegativePeriod` is either the default accumulator
`{negative: 0, total: 1}` or a significant period (total ≥ 5); its
negative ratio is maximal over all significant periods (so a
below-threshold bucket is never selected); the default is returned when
no period is significant, and also when every significant period has
zero negative ratio (the strict-improvement reduce never replaces the
ratio-0 default); and in the claim's scenario bucket B (total 10,
8 negative) is selected over bucket A (total 3). -/
theorem c6_peak_negative_significant :
    (∀ timeline : List Period,
      (peakNegativePeriod timeline = defaultPeak ∨
        peakNegativePeriod timeline ∈ significantPeriods timeline) ∧
      (∀ p ∈ significantPeriods timeline,
        negShare p ≤ negShare (peakNegativePeriod timeline)) ∧
      (significantPeriods timeline = [] →
        peakNegativePeriod timeline = defaultPeak) ∧
      ((∀ p ∈ significantPeriods timeline, negShare p = 0) →
        peakNegativePeriod timeline = defaultPeak)) ∧
    peakNegativePeriod [bucketA, bucketB] = bucketB := by
  constructor
  · intro timeline
    obtain ⟨ha, hb, _⟩ := foldl_peak_spec (significantPeriods timeline) defaultPeak
    refine ⟨ha, hb, ?_, ?_⟩
    · intro h
      unfold peakNegativePeriod
      rw [h]
      rfl
    · intro hz
      unfold peakNegativePeriod
      apply foldl_peak_no_improvement
      intro p hp
      rw [hz p hp]
      norm_num [negShare, defaultPeak]
  · have hsig : significantPeriods [bucketA, bucketB] = [bucketB] := rfl
    unfold peakNegativePeriod
    rw [hsig]
    simp only [List.foldl_cons, List.foldl_nil]
    rw [if_pos]
    norm_num [negShare, defaultPeak, bucketB]

/-- C6 witness: the zero-negative-ratio instance of the amended theorem —
one significant period with no negative feedback, so the default
accumulator is returned. -/
theorem c6_peak_negative_significant_witness :
    peakNegativePeriod [⟨0, 5, 0, 0, 5⟩] = defaultPeak := by
  refine (c6_peak_negative_significant.1 [⟨0, 5, 0, 0, 5⟩]).2.2.2 ?_
  intro p hp
  have hp' : p = ⟨0, 5, 0, 0, 5⟩ := by
    simpa [significantPeriods] using hp
  rw [hp']
  norm_num [negShare]

/-! ### C7: sentiment change points -/

/-- The change-point selection as the claim states it: one entry per
consecutive pair of significant periods whose negative-share delta is at
least 15 percentage points, direction "negative" for an increase and
"positive" for a decrease. -/
def consecutiveChanges (l : List Period) : List SentimentChange :=
  (l.zip l.tail).filterMap fun pr =>
    if 15 ≤ |negPercent pr.2 - negPercent pr.1| then
      some ⟨pr.1.timestamp, pr.2.timestamp,
        toFixed1 (negPercent pr.2 - negPercent pr.1),
        if 0 < negPercent pr.2 - negPercent pr.1 then "negative" else "positive"⟩
    else none

lemma sentimentChangesAux_eq (rest : List Period) : ∀ prev : Period,
    sentimentChangesAux prev rest = consecutiveChanges (prev :: rest) := by
  induction rest with
  | nil => intro prev; rfl
  | cons c rs ih =>
      intro prev
      show (if 15 ≤ |negPercent c - negPercent prev| then _ else []) ++
          sentimentChangesAux c rs = _
      rw [ih c]
      unfold consecutiveChanges
      simp only [List.zip_cons_cons, List.tail_cons, List.filterMap_cons]
      split_ifs <;> simp

/-- C7: `sentimentChanges` equals the first five (in original
chronological order, not the five largest by magnitude) of the
change-point list over consecutive significant periods, and never has
more than 5 entries. -/
theorem c7_sentiment_changes (timeline : List Period) :
    sentimentChanges timeline =
      (consecutiveChanges (significantPeriods timeline)).take 5 ∧
    (sentimentChanges timeline).length ≤ 5 := by
  have heq : sentimentChanges timeline =
      (consecutiveChanges (significantPeriods timeline)).take 5 := by
    unfold sentimentChanges
    rcases h : significantPeriods timeline with _ | ⟨p, rest⟩
    · rfl
    · show (sentimentChangesAux p rest).take 5 = _
      rw [sentimentChangesAux_eq rest p]
  refine ⟨heq, ?_⟩
  rw [heq]
  exact le_trans (List.length_take_le 5 _) (le_refl 5)

/-- C7 witness: on the empty timeline the change list is empty. -/
theorem c7_sentiment_changes_witness : sentimentChanges [] = [] := by
  have h := (c7_sentiment_changes []).1
  simpa using h

/-! ### C9: issue-based recommendation -/

lemma bump_ne_nil (m : List (String × ℕ)) (k : String) : bump m k ≠ [] := by
  cases m with
  | nil => simp [bump]
  | cons p rest =>
      rcases p with ⟨k', c⟩
      unfold bump
      split_ifs <;> simp

lemma foldl_issueTypes_ne_nil (l : List FeedbackRecord) : ∀ acc : FeedbackAcc,
    acc.issueTypes ≠ [] → (l.foldl feedbackStep acc).issueTypes ≠ [] := by
  induction l with
  | nil => intro acc h; simpa using h
  | cons f fs ih =>
      intro acc h
      rw [List.foldl_cons]
      apply ih
      rcases hs : f.sentiment <;> rcases ht : f.issueType <;>
        simp [feedbackStep, hs, ht, bump_ne_nil, h]

lemma foldl_issueTypes_of_negative (l : List FeedbackRecord) : ∀ acc : FeedbackAcc,
    (∃ f ∈ l, f.sentiment = Sentiment.negative ∧ f.issueType.isSome) →
    (l.foldl feedbackStep acc).issueTypes ≠ [] := by
  induction l with
  | nil => intro acc h; simp at h
  | cons f fs ih =>
      intro acc h
      rw [List.foldl_cons]
      obtain ⟨g, hg, hneg, hsome⟩ := h
      rcases List.mem_cons.mp hg with rfl | hg'
      · apply foldl_issueTypes_ne_nil
        rcases ht : g.issueType with _ | t
        · rw [ht] at hsome; simp at hsome
        · simp [feedbackStep, hneg, ht, bump_ne_nil]
      · exact ih (feedbackStep acc f) ⟨g, hg', hneg, hsome⟩

lemma sorted_take_head_max (entries : List TopIssue) (hne : entries ≠ []) :
    ∃ t rest, ((entries.insertionSort byCountDescRel).take 5) = t :: rest ∧
      ∀ u ∈ entries, u.count ≤ t.count := by
  have hperm := List.perm_insertionSort byCountDescRel entries
  have hsorted := List.sorted_insertionSort byCountDescRel entries
  rcases hs : entries.insertionSort byCountDescRel with _ | ⟨t, ts⟩
  · rw [hs] at hperm
    exact absurd hperm.symm.eq_nil hne
  · refine ⟨t, ts.take 4, rfl, ?_⟩
    intro u hu
    have hmem : u ∈ t :: ts := by
      rw [← hs]
      exact hperm.mem_iff.mpr hu
    rw [hs] at hsorted
    rcases List.mem_cons.mp hmem with rfl | hmem'
    · exact le_refl _
    · exact (List.sorted_cons.mp hsorted).1 u hmem'

lemma issueBasedRecommendations_spec (fd : FeedbackData) (t : TopIssue)
    (rest : List TopIssue) (h : fd.topIssues = t :: rest) :
    ∃ r : Recommendation, issueBasedRecommendations fd = [r] ∧
      r.priority = claimedPriority t := by
  simp only [issueBasedRecommendations, h]
  by_cases h1 : t.issue = "queue"
  · refine ⟨⟨"Logistics", "Improve Queue Management",
      if 30 < t.percentage then "high" else "medium"⟩, by simp [h1], ?_⟩
    simp [claimedPriority, h1]
  by_cases h2 : t.issue = "audio"
  · refine ⟨⟨"Technical", "Enhance Audio Setup",
      if 30 < t.percentage then "high" else "medium"⟩, by simp [h1, h2], ?_⟩
    simp [claimedPriority, h2]
  by_cases h3 : t.issue = "video"
  · refine ⟨⟨"Technical", "Improve Visual Displays",
      if 30 < t.percentage then "high" else "medium"⟩, by simp [h1, h2, h3], ?_⟩
    simp [claimedPriority, h3]
  by_cases h4 : t.issue = "crowding"
  · refine ⟨⟨"Venue", "Address Space Management",
      if 30 < t.percentage then "high" else "medium"⟩,
      by simp [h1, h2, h3, h4], ?_⟩
    simp [claimedPriority, h4]
  by_cases h5 : t.issue = "amenities"
  · refine ⟨⟨"Services", "Enhance Attendee Amenities",
      if 30 < t.percentage then "high" else "medium"⟩,
      by simp [h1, h2, h3, h4, h5], ?_⟩
    simp [claimedPriority, h5]
  by_cases h6 : t.issue = "content"
  · refine ⟨⟨"Programming", "Refine Event Content",
      if 30 < t.percentage then "high" else "medium"⟩,
      by simp [h1, h2, h3, h4, h5, h6], ?_⟩
    simp [claimedPriority, h6]
  by_cases h7 : t.issue = "temperature"
  · refine ⟨⟨"Venue", "Improve Climate Control",
      if 25 < t.percentage then "high" else "medium"⟩,
      by simp [h1, h2, h3, h4, h5, h6, h7], ?_⟩
    simp [claimedPriority, h7]
  by_cases h8 : t.issue = "safety"
  · refine ⟨⟨"Security", "Enhance Safety Measures", "high"⟩,
      by simp [h1, h2, h3, h4, h5, h6, h7, h8], ?_⟩
    simp [claimedPriority, h8]
  · refine ⟨⟨"General", "Address " ++ t.issue ++ " Issues",
      if 25 < t.percentage then "high" else "medium"⟩,
      by simp [h1, h2, h3, h4, h5, h6, h7, h8], ?_⟩
    simp [claimedPriority, h1, h2, h3, h4, h5, h6, h8]

/-- C9: whenever the feedback set contains a negative record with an
issue type, the issue-based block of the recommendation engine emits
exactly one recommendation; it is generated from `topIssues[0]`, whose
count is maximal over every accumulated issue type, and its priority
follows the claimed per-type thresholds (strict 30% for
queue/audio/video/crowding/amenities/content, strict 25% for temperature
and the generic fallback, unconditionally high for safety). -/
theorem c9_issue_recommendation (l : List FeedbackRecord)
    (h : ∃ f ∈ l, f.sentiment = Sentiment.negative ∧ f.issueType.isSome) :
    ∃ t rest, (analyzeFeedback l).topIssues = t :: rest ∧
      (∀ p ∈ (analyzeFeedback l).issueTypes, p.2 ≤ t.count) ∧
      ∃ r : Recommendation,
        issueBasedRecommendations (analyzeFeedback l) = [r] ∧
        r.priority = claimedPriority t := by
  have hne : (l.foldl feedbackStep initFeedbackAcc).issueTypes ≠ [] :=
    foldl_issueTypes_of_negative l initFeedbackAcc h
  have htop : (analyzeFeedback l).topIssues =
      (((l.foldl feedbackStep initFeedbackAcc).issueTypes.map
        (fun p => TopIssue.mk p.1 p.2
          (if 0 < (l.foldl feedbackStep initFeedbackAcc).negCount then
            (p.2 : ℚ) / (l.foldl feedbackStep initFeedbackAcc).negCount * 100
          else 0))).insertionSort byCountDescRel).take 5 := rfl
  have hit : (analyzeFeedback l).issueTypes =
      (l.foldl feedbackStep initFeedbackAcc).issueTypes := rfl
  have hmapne : (l.foldl feedbackStep initFeedbackAcc).issueTypes.map
      (fun p => TopIssue.mk p.1 p.2
        (if 0 < (l.foldl feedbackStep initFeedbackAcc).negCount then
          (p.2 : ℚ) / (l.foldl feedbackStep initFeedbackAcc).negCount * 100
        else 0)) ≠ [] := by
    simpa using hne
  obtain ⟨t, rest, hts, hmax⟩ := sorted_take_head_max _ hmapne
  refine ⟨t, rest, by rw [htop, hts], ?_, ?_⟩
  · intro p hp
    rw [hit] at hp
    have : (TopIssue.mk p.1 p.2
        (if 0 < (l.foldl feedbackStep initFeedbackAcc).negCount then
          (p.2 : ℚ) / (l.foldl feedbackStep initFeedbackAcc).negCount * 100
        else 0)) ∈ (l.foldl feedbackStep initFeedbackAcc).issueTypes.map
        (fun p => TopIssue.mk p.1 p.2
          (if 0 < (l.foldl feedbackStep initFeedbackAcc).negCount then
            (p.2 : ℚ) / (l.foldl feedbackStep initFeedbackAcc).negCount * 100
          else 0)) := List.mem_map_of_mem _ hp
    exact hmax _ this
  · exact issueBasedRecommendations_spec (analyzeFeedback l) t rest
      (by rw [htop, hts])

/-- C9 witness feedback set: one negative record tagged "queue". -/
def demoQueueFeedback : List FeedbackRecord :=
  [⟨1, "long line at entry", "direct", .negative, -(1/2), some "queue", 0⟩]

/-- C9 witness: on the demo set the issue-based block emits exactly one
recommendation. -/
theorem c9_issue_recommendation_witness :
    (issueBasedRecommendations (analyzeFeedback demoQueueFeedback)).length = 1 := by
  obtain ⟨t, rest, hti, hmax, r, hr, hp⟩ :=
    c9_issue_recommendation demoQueueFeedback
      ⟨⟨1, "long line at entry", "direct", .negative, -(1/2), some "queue", 0⟩,
        by simp [demoQueueFeedback], by simp, by simp⟩
  rw [hr]
  rfl

/-! ### C4: bounded top-5 retention buffers -/

lemma foldl_min_le_init (key : α → ℚ) (bs : List α) : ∀ m : ℚ,
    bs.foldl (fun m x => if key x < m then key x else m) m ≤ m := by
  induction bs with
  | nil => intro m; simp
  | cons x xs ih =>
      intro m
      rw [List.foldl_cons]
      by_cases h : key x < m
      · rw [if_pos h]
        exact le_trans (ih (key x)) (le_of_lt h)
      · rw [if_neg h]
        exact ih m

lemma foldl_min_le_mem (key : α → ℚ) (bs : List α) : ∀ m : ℚ, ∀ x ∈ bs,
    bs.foldl (fun m x => if key x < m then key x else m) m ≤ key x := by
  induction bs with
  | nil => intro m x hx; simp at hx
  | cons y ys ih =>
      intro m x hx
      rw [List.foldl_cons]
      rcases List.mem_cons.mp hx with rfl | hx'
      · by_cases h : key x < m
        · rw [if_pos h]
          exact foldl_min_le_init key ys (key x)
        · rw [if_neg h]
          exact le_trans (foldl_min_le_init key ys m) (not_lt.mp h)
      · exact ih _ x hx'

lemma foldl_min_exists (key : α → ℚ) (bs : List α) : ∀ m : ℚ,
    bs.foldl (fun m x => if key x < m then key x else m) m = m ∨
    ∃ x ∈ bs, bs.foldl (fun m x => if key x < m then key x else m) m = key x := by
  induction bs with
  | nil => intro m; left; rfl
  | cons y ys ih =>
      intro m
      rw [List.foldl_cons]
      by_cases h : key y < m
      · rw [if_pos h]
        rcases ih (key y) with h' | ⟨x, hx, h'⟩
        · exact Or.inr ⟨y, List.mem_cons_self y ys, h'⟩
        · exact Or.inr ⟨x, List.mem_cons_of_mem y hx, h'⟩
      · rw [if_neg h]
        rcases ih m with h' | ⟨x, hx, h'⟩
        · exact Or.inl h'
        · exact Or.inr ⟨x, List.mem_cons_of_mem y hx, h'⟩

lemma minKeyVal_le (key : α → ℚ) (b : α) (bs : List α) :
    ∀ x ∈ b :: bs, minKeyVal key b bs ≤ key x := by
  intro x hx
  rcases List.mem_cons.mp hx with rfl | hx'
  · exact foldl_min_le_init key bs (key x)
  · exact foldl_min_le_mem key bs (key b) x hx'

lemma minKeyVal_mem (key : α → ℚ) (b : α) (bs : List α) :
    ∃ x ∈ b :: bs, key x = minKeyVal key b bs := by
  rcases foldl_min_exists key bs (key b) with h | ⟨x, hx, h⟩
  · exact ⟨b, List.mem_cons_self b bs, h.symm⟩
  · exact ⟨x, List.mem_cons_of_mem b hx, h.symm⟩

lemma replaceFirstByKey_perm (key : α → ℚ) (m : ℚ) (e : α) :
    ∀ l : List α, (∃ x ∈ l, key x = m) →
    ∃ x, x ∈ l ∧ key x = m ∧
      (e :: l).Perm (x :: replaceFirstByKey key m e l) := by
  intro l
  induction l with
  | nil => intro h; simp at h
  | cons b bs ih =>
      intro h
      by_cases hb : key b = m
      · refine ⟨b, List.mem_cons_self b bs, hb, ?_⟩
        unfold replaceFirstByKey
        rw [if_pos hb]
        exact List.Perm.swap b e bs
      · obtain ⟨x, hx, hxm⟩ := h
        rcases List.mem_cons.mp hx with rfl | hx'
        · exact absurd hxm hb
        · obtain ⟨x', hx's, hxm', hperm⟩ := ih ⟨x, hx', hxm⟩
          refine ⟨x', List.mem_cons_of_mem b hx's, hxm', ?_⟩
          unfold replaceFirstByKey
          rw [if_neg hb]
          exact (List.Perm.swap b e bs).trans
            ((hperm.cons b).trans
              (List.Perm.swap x' b (replaceFirstByKey key m e bs)))

lemma replaceFirstByKey_mem (key : α → ℚ) (m : ℚ) (e : α) :
    ∀ l : List α, ∀ y ∈ replaceFirstByKey key m e l, y = e ∨ y ∈ l := by
  intro l
  induction l with
  | nil => intro y hy; simp [replaceFirstByKey] at hy
  | cons b bs ih =>
      intro y hy
      unfold replaceFirstByKey at hy
      split_ifs at hy with hb
      · rcases List.mem_cons.mp hy with rfl | hy'
        · exact Or.inl rfl
        · exact Or.inr (List.mem_cons_of_mem b hy')
      · rcases List.mem_cons.mp hy with rfl | hy'
        · exact Or.inr (List.mem_cons_self y bs)
        · rcases ih y hy' with h | h
          · exact Or.inl h
          · exact Or.inr (List.mem_cons_of_mem b h)

lemma updateTopBuffer_full (key : α → ℚ) (e b : α) (bs : List α)
    (h : ¬(b :: bs).length < 5) :
    updateTopBuffer key (b :: bs) e =
      if minKeyVal key b bs < key e then
        replaceFirstByKey key (minKeyVal key b bs) e (b :: bs)
      else b :: bs := by
  unfold updateTopBuffer
  rw [if_neg h]

lemma updateTopBuffer_step (key : α → ℚ) (buf : List α) (e : α) (rem : List α)
    (hlen : buf.length = min (buf.length + rem.length) 5)
    (hdom : ∀ r ∈ rem, ∀ b ∈ buf, key r ≤ key b) :
    ∃ rem', ((updateTopBuffer key buf e) ++ rem').Perm (e :: (buf ++ rem)) ∧
      (updateTopBuffer key buf e).length = min (buf.length + rem.length + 1) 5 ∧
      ∀ r ∈ rem', ∀ b ∈ updateTopBuffer key buf e, key r ≤ key b := by
  by_cases hb : buf.length < 5
  · have hrem : rem = [] := by
      rcases Nat.le_total (buf.length + rem.length) 5 with h | h
      · rw [min_eq_left h] at hlen
        have : rem.length = 0 := by omega
        exact List.length_eq_zero.mp this
      · rw [min_eq_right h] at hlen
        omega
    subst hrem
    unfold updateTopBuffer
    rw [if_pos hb]
    refine ⟨[], ?_, ?_, by simp⟩
    · simpa using List.perm_append_singleton e buf
    · simp only [List.length_append, List.length_cons, List.length_nil]
      omega
  · have h5 : buf.length = 5 := by omega
    rcases buf with _ | ⟨b, bs⟩
    · simp at h5
    · rw [updateTopBuffer_full key e b bs hb]
      by_cases hlt : minKeyVal key b bs < key e
      · rw [if_pos hlt]
        obtain ⟨x, hx, hxm, hperm⟩ :=
          replaceFirstByKey_perm key (minKeyVal key b bs) e (b :: bs)
            (minKeyVal_mem key b bs)
        have hrl : (replaceFirstByKey key (minKeyVal key b bs) e (b :: bs)).length =
            (b :: bs).length := by
          have hpl := hperm.length_eq
          simp only [List.length_cons] at hpl ⊢
          omega
        refine ⟨x :: rem, ?_, ?_, ?_⟩
        · exact List.perm_middle.trans (hperm.symm.append_right rem)
        · rw [hrl]
          simp only [List.length_cons] at h5 ⊢
          omega
        · intro r hr b' hb'
          rcases replaceFirstByKey_mem key (minKeyVal key b bs) e (b :: bs) b' hb'
            with rfl | hb''
          · rcases List.mem_cons.mp hr with rfl | hr'
            · rw [hxm]
              exact le_of_lt hlt
            · have := hdom r hr' x hx
              rw [hxm] at this
              exact le_trans this (le_of_lt hlt)
          · rcases List.mem_cons.mp hr with rfl | hr'
            · rw [hxm]
              exact minKeyVal_le key b bs b' hb''
            · exact hdom r hr' b' hb''
      · rw [if_neg hlt]
        refine ⟨e :: rem, List.perm_middle, ?_, ?_⟩
        · simp only [List.length_cons] at h5 ⊢
          omega
        · intro r hr b' hb'
          rcases List.mem_cons.mp hr with rfl | hr'
          · exact le_trans (not_lt.mp hlt) (minKeyVal_le key b bs b' hb')
          · exact hdom r hr' b' hb'

lemma foldl_updateTopBuffer_spec (key : α → ℚ) (l : List α) :
    ∀ buf rem : List α,
    buf.length = min (buf.length + rem.length) 5 →
    (∀ r ∈ rem, ∀ b ∈ buf, key r ≤ key b) →
    ∃ rem', ((l.foldl (updateTopBuffer key) buf) ++ rem').Perm (l ++ buf ++ rem) ∧
      (l.foldl (updateTopBuffer key) buf).length =
        min (l.length + buf.length + rem.length) 5 ∧
      ∀ r ∈ rem', ∀ b ∈ l.foldl (updateTopBuffer key) buf, key r ≤ key b := by
  induction l with
  | nil =>
      intro buf rem hlen hdom
      refine ⟨rem, by simp, ?_, hdom⟩
      simpa using hlen
  | cons e es ih =>
      intro buf rem hlen hdom
      obtain ⟨rem1, hperm1, hlen1, hdom1⟩ := updateTopBuffer_step key buf e rem hlen hdom
      have hlensum : (updateTopBuffer key buf e).length + rem1.length =
          buf.length + rem.length + 1 := by
        have := hperm1.length_eq
        simp only [List.length_append, List.length_cons] at this
        omega
      have hlen1' : (updateTopBuffer key buf e).length =
          min ((updateTopBuffer key buf e).length + rem1.length) 5 := by
        omega
      obtain ⟨rem', hperm', hlen', hdom'⟩ := ih (updateTopBuffer key buf e) rem1 hlen1' hdom1
      refine ⟨rem', ?_, ?_, hdom'⟩
      · rw [List.foldl_cons]
        refine hperm'.trans ?_
        simp only [List.cons_append, List.append_assoc]
        exact (List.Perm.append_left es hperm1).trans List.perm_middle
      · rw [List.foldl_cons, hlen']
        simp only [List.length_cons]
        omega

lemma topBuffer_correct (key : α → ℚ) (l : List α) :
    ∃ rem, ((l.foldl (updateTopBuffer key) []) ++ rem).Perm l ∧
      (l.foldl (updateTopBuffer key) []).length = min l.length 5 ∧
      ∀ r ∈ rem, ∀ b ∈ l.foldl (updateTopBuffer key) [], key r ≤ key b := by
  obtain ⟨rem, hperm, hlen, hdom⟩ :=
    foldl_updateTopBuffer_spec key l [] [] (by simp) (by simp)
  exact ⟨rem, by simpa using hperm, by simpa using hlen, hdom⟩

/-- The buffer entries of all positive feedback records, in input
order. -/
def positiveEntries (l : List FeedbackRecord) : List FBEntry :=
  (l.filter fun f => f.sentiment = Sentiment.positive).map posEntry

/-- The buffer entries of all negative feedback records, in input
order. -/
def negativeEntries (l : List FeedbackRecord) : List FBEntry :=
  (l.filter fun f => f.sentiment = Sentiment.negative).map negEntry

lemma foldl_topPos (l : List FeedbackRecord) : ∀ acc : FeedbackAcc,
    (l.foldl feedbackStep acc).topPos =
      (positiveEntries l).foldl (updateTopBuffer FBEntry.score) acc.topPos := by
  induction l with
  | nil => intro acc; rfl
  | cons f fs ih =>
      intro acc
      rw [List.foldl_cons, ih (feedbackStep acc f)]
      rcases hs : f.sentiment <;>
        simp [positiveEntries, feedbackStep, hs, List.filter_cons]

lemma foldl_topNeg (l : List FeedbackRecord) : ∀ acc : FeedbackAcc,
    (l.foldl feedbackStep acc).topNeg =
      (negativeEntries l).foldl (updateTopBuffer (fun e => -e.score)) acc.topNeg := by
  induction l with
  | nil => intro acc; rfl
  | cons f fs ih =>
      intro acc
      rw [List.foldl_cons, ih (feedbackStep acc f)]
      rcases hs : f.sentiment <;>
        simp [negativeEntries, feedbackStep, hs, List.filter_cons]

/-- C4: each top-feedback buffer holds `min(#candidates, 5)` entries
(never more than 5); after the final sort `topPositiveFeedback` is
sorted descending by score and `topNegativeFeedback` ascending; and each
buffer retains a highest-score (resp. lowest-score) selection: the
positive entries split into the buffer plus dropped entries whose scores
are all ≤ every buffered score, and symmetrically every dropped negative
entry's score is ≥ every buffered score. -/
theorem c4_top_feedback_buffers (l : List FeedbackRecord) :
    ((analyzeFeedback l).topPositiveFeedback.length =
        min (positiveEntries l).length 5 ∧
      List.Sorted byScoreDescRel (analyzeFeedback l).topPositiveFeedback ∧
      ∃ rem, ((analyzeFeedback l).topPositiveFeedback ++ rem).Perm (positiveEntries l) ∧
        ∀ r ∈ rem, ∀ b ∈ (analyzeFeedback l).topPositiveFeedback,
          r.score ≤ b.score) ∧
    ((analyzeFeedback l).topNegativeFeedback.length =
        min (negativeEntries l).length 5 ∧
      List.Sorted byScoreAscRel (analyzeFeedback l).topNegativeFeedback ∧
      ∃ rem, ((analyzeFeedback l).topNegativeFeedback ++ rem).Perm (negativeEntries l) ∧
        ∀ r ∈ rem, ∀ b ∈ (analyzeFeedback l).topNegativeFeedback,
          b.score ≤ r.score) := by
  have htpos : (analyzeFeedback l).topPositiveFeedback =
      ((l.foldl feedbackStep initFeedbackAcc).topPos).insertionSort byScoreDescRel := rfl
  have htneg : (analyzeFeedback l).topNegativeFeedback =
      ((l.foldl feedbackStep initFeedbackAcc).topNeg).insertionSort byScoreAscRel := rfl
  have hfoldp : (l.foldl feedbackStep initFeedbackAcc).topPos =
      (positiveEntries l).foldl (updateTopBuffer FBEntry.score) [] :=
    foldl_topPos l initFeedbackAcc
  have hfoldn : (l.foldl feedbackStep initFeedbackAcc).topNeg =
      (negativeEntries l).foldl (updateTopBuffer (fun e => -e.score)) [] :=
    foldl_topNeg l initFeedbackAcc
  constructor
  · obtain ⟨rem, hperm, hlen, hdom⟩ :=
      topBuffer_correct FBEntry.score (positiveEntries l)
    have hsp := List.perm_insertionSort byScoreDescRel
      ((l.foldl feedbackStep initFeedbackAcc).topPos)
    rw [hfoldp] at hsp
    refine ⟨?_, ?_, ⟨rem, ?_, ?_⟩⟩
    · rw [htpos, hfoldp, hsp.length_eq]
      exact hlen
    · rw [htpos]
      exact List.sorted_insertionSort byScoreDescRel _
    · rw [htpos, hfoldp]
      exact (hsp.append_right rem).trans hperm
    · intro r hr b hb
      rw [htpos, hfoldp] at hb
      exact hdom r hr b (hsp.mem_iff.mp hb)
  · obtain ⟨rem, hperm, hlen, hdom⟩ :=
      topBuffer_correct (fun (e : FBEntry) => -e.score) (negativeEntries l)
    have hsn := List.perm_insertionSort byScoreAscRel
      ((l.foldl feedbackStep initFeedbackAcc).topNeg)
    rw [hfoldn] at hsn
    refine ⟨?_, ?_, ⟨rem, ?_, ?_⟩⟩
    · rw [htneg, hfoldn, hsn.length_eq]
      exact hlen
    · rw [htneg]
      exact List.sorted_insertionSort byScoreAscRel _
    · rw [htneg, hfoldn]
      exact (hsn.append_right rem).trans hperm
    · intro r hr b hb
      rw [htneg, hfoldn] at hb
      have := hdom r hr b (hsn.mem_iff.mp hb)
      simpa using this

/-- C4 witness: a 7-record set with 6 positive scores — the positive
buffer keeps 5 entries. -/
def demoBufferFeedback : List FeedbackRecord :=
  [⟨1, "a", "direct", .positive, 1/10, none, 0⟩,
   ⟨2, "b", "direct", .positive, 2/10, none, 1⟩,
   ⟨3, "c", "direct", .positive, 3/10, none, 2⟩,
   ⟨4, "d", "direct", .negative, -(3/10), some "queue", 3⟩,
   ⟨5, "e", "direct", .positive, 5/10, none, 4⟩,
   ⟨6, "f", "direct", .positive, 6/10, none, 5⟩,
   ⟨7, "g", "direct", .positive, 7/10, none, 6⟩]

/-- C4 witness: on the demo set the positive buffer has exactly
`min 6 5 = 5` entries. -/
theorem c4_top_feedback_buffers_witness :
    (analyzeFeedback demoBufferFeedback).topPositiveFeedback.length = 5 := by
  have h := (c4_top_feedback_buffers demoBufferFeedback).1.1
  rw [h]
  rfl

end EventSentix
